import Mathlib

/-!
Shallow embedding of the token-data aggregation core of the WTF-Trading-bot
repository (file `bot/utils/token_data.py`): the price oracle `get_sol_price`,
the aggregator `fetch_token_data`, and the module-level TTL cache
`hybrid_token_data_cache` (TTLCache with maxsize 500, ttl 300).

Modelling conventions:
* Python floats are modelled as exact rationals (`ℚ`).
* A JSON document obtained from `resp.json()` is a `JVal`.  DexScreener sends
  numeric fields such as `priceUsd` as decimal strings; since Python's
  `float()` converts those, any value that `float()` accepts is represented as
  `jnum`, while `jstr` stands for strings that `float()` rejects.
* A raised Python exception is `Except.error ()`; the aggregator's
  `except Exception` handler corresponds to matching on `Except.error`.
* Network effects are passed in as data: each HTTP interaction is an
  `Except Unit HttpResp` argument (`Except.error ()` = transport error or
  timeout, i.e. `session.get` itself raised).
* The shared cache is passed and returned explicitly, together with the
  current time in seconds; `cachePut` records the insertion timestamp the way
  `TTLCache.__setitem__` does.  Capacity (maxsize 500) eviction of *other*
  keys is not modelled: every property below concerns only the entry of the
  queried key, which `cachePut` always retains.
* The third component of `fetch_token_data`'s result counts the upstream HTTP
  calls the invocation performed (DexScreener search and/or Jupiter price).
-/

namespace TokenData

/-- JSON values as produced by `await resp.json()`. -/
inductive JVal where
  | jnull
  | jbool (b : Bool)
  | jnum (q : ℚ)
  | jstr (s : String)
  | jarr (elems : List JVal)
  | jobj (fields : List (String × JVal))

/-- Python `v.get(key)` on a dict: `none` stands for Python `None`.
On a non-dict it raises `AttributeError`. -/
def pyDictGet (v : JVal) (key : String) : Except Unit (Option JVal) :=
  match v with
  | .jobj fields => .ok (fields.lookup key)
  | _ => .error ()

/-- Python `v.get(key, dflt)` on a dict; raises on a non-dict.  Note that the
default is used only when the key is absent: a key present with value `null`
yields `jnull`, not the default. -/
def pyDictGetD (v : JVal) (key : String) (dflt : JVal) : Except Unit JVal :=
  match v with
  | .jobj fields => .ok ((fields.lookup key).getD dflt)
  | _ => .error ()

/-- Python `v[key]` subscription: `KeyError` when absent, `TypeError` on a
non-dict. -/
def pyGetItem (v : JVal) (key : String) : Except Unit JVal :=
  match v with
  | .jobj fields =>
    match fields.lookup key with
    | some x => .ok x
    | none => .error ()
  | _ => .error ()

/-- Python `float(v)`: succeeds on numbers (and numeric strings, which the
model folds into `jnum`) and on bools; raises on `None`, dicts, lists and
non-numeric strings. -/
def pyFloat (v : JVal) : Except Unit ℚ :=
  match v with
  | .jnum q => .ok q
  | .jbool b => .ok (if b then 1 else 0)
  | _ => .error ()

/-- Python truthiness of a JSON value. -/
def pyTruthy (v : JVal) : Bool :=
  match v with
  | .jnull => false
  | .jbool b => b
  | .jnum q => q != 0
  | .jstr s => s != ""
  | .jarr elems => !elems.isEmpty
  | .jobj fields => !fields.isEmpty

/-- Python `str.lower()` (ASCII view, via `Char.toLower`). -/
def strLower (s : String) : String := ⟨s.data.map Char.toLower⟩

/-- Python `s.lower()` applied to a JSON value: `AttributeError` unless the
value is a string. -/
def pyLower (v : JVal) : Except Unit String :=
  match v with
  | .jstr s => .ok (strLower s)
  | _ => .error ()

/-- Python `round(x, 4)` rounds half to even (banker's rounding). -/
def roundHalfEven (q : ℚ) : ℤ :=
  let f := ⌊q⌋
  let r := q - (f : ℚ)
  if r < 1/2 then f
  else if 1/2 < r then f + 1
  else if f % 2 = 0 then f else f + 1

/-- `round(x, 4)` from the source, on the exact rational value. -/
def round4 (q : ℚ) : ℚ := ((roundHalfEven (q * 10000) : ℤ) : ℚ) / 10000

/-- A token record is the Python dict built by `fetch_token_data`
(insertion-ordered key/value pairs). -/
abbrev TokenRecord := List (String × JVal)

/-- One entry of `hybrid_token_data_cache = TTLCache(maxsize=500, ttl=300)`. -/
structure CacheEntry where
  value : TokenRecord
  insertedAt : ℕ

abbrev Cache := List (String × CacheEntry)

/-- `ttl=300` seconds. -/
def cacheTtl : ℕ := 300

/-- `TTLCache.get`: a stored entry is returned while it is younger than the
ttl, and behaves as absent afterwards. -/
def cacheGet (c : Cache) (now : ℕ) (key : String) : Option TokenRecord :=
  match c.lookup key with
  | some e => if now < e.insertedAt + cacheTtl then some e.value else none
  | none => none

/-- `cache[key] = value`: overwrite the key's entry, stamped with the current
time. -/
def cachePut (c : Cache) (now : ℕ) (key : String) (v : TokenRecord) : Cache :=
  (key, ⟨v, now⟩) :: c.filter (fun kv => kv.1 != key)

/-- An HTTP response: status code and the outcome of `await resp.json()`
(`Except.error ()` = the body failed to parse as JSON). -/
structure HttpResp where
  status : ℕ
  body : Except Unit JVal

/-- `float(data['data']['SOL']['price'])` from `get_sol_price`. -/
def extractSolPrice (body : JVal) : Except Unit ℚ := do
  let d ← pyGetItem body "data"
  let sol ← pyGetItem d "SOL"
  let p ← pyGetItem sol "price"
  pyFloat p

/-- `get_sol_price`: any exception inside the `try` block yields the fixed
fallback `138.0`.  The source never reads the response's HTTP status. -/
def get_sol_price (resp : Except Unit HttpResp) : ℚ :=
  match (do
    let r ← resp
    let body ← r.body
    extractSolPrice body : Except Unit ℚ) with
  | .ok q => q
  | .error _ => 138

/-- The sort key of a pair:
`float(p.get("liquidity", {}).get("usd", 0))`. -/
def liqKey (p : JVal) : Except Unit ℚ := do
  let l ← pyDictGetD p "liquidity" (.jobj [])
  let u ← pyDictGetD l "usd" (.jnum 0)
  pyFloat u

/-- Compute the sort key for every pair, in order, as `sorted` does before
sorting; the first raising key aborts. -/
def decorate : List JVal → Except Unit (List (JVal × ℚ))
  | [] => .ok []
  | p :: ps => do
    let k ← liqKey p
    let rest ← decorate ps
    .ok ((p, k) :: rest)

/-- Insert into a descending-sorted list, keeping the inserted (earlier)
element ahead of equal keys, as a stable sort does. -/
def insertDesc (x : JVal × ℚ) : List (JVal × ℚ) → List (JVal × ℚ)
  | [] => [x]
  | y :: ys => if y.2 ≤ x.2 then x :: y :: ys else y :: insertDesc x ys

/-- Stable sort by descending key; the same ordering Python's stable
`sorted(..., reverse=True)` produces. -/
def sortedDesc : List (JVal × ℚ) → List (JVal × ℚ)
  | [] => []
  | x :: xs => insertDesc x (sortedDesc xs)

/-- `sorted(data["pairs"], key=..., reverse=True)[0]`. -/
def selectPair (pairsList : List JVal) : Except Unit JVal := do
  let keyed ← decorate pairsList
  match sortedDesc keyed with
  | [] => .error ()
  | best :: _ => .ok best.1

/-- Lines 57-58 of the source:
`is_base = pair["baseToken"]["address"].lower() == contract_address.lower()`
and `token_info = pair["baseToken"] if is_base else pair["quoteToken"]`. -/
def pickTokenInfo (contract_address : String) (pair : JVal) :
    Except Unit JVal := do
  let baseTok ← pyGetItem pair "baseToken"
  let baseAddrV ← pyGetItem baseTok "address"
  let baseAddr ← pyLower baseAddrV
  if baseAddr == strLower contract_address then .ok baseTok
  else pyGetItem pair "quoteToken"

/-- `float(pair.get("priceUsd", 0))`. -/
def priceUsdOf (pair : JVal) : Except Unit ℚ := do
  let v ← pyDictGetD pair "priceUsd" (.jnum 0)
  pyFloat v

/-- `float(pair.get("priceChange", {}).get("h24", 0))`. -/
def priceChangeH24Of (pair : JVal) : Except Unit ℚ := do
  let v ← pyDictGetD pair "priceChange" (.jobj [])
  let h ← pyDictGetD v "h24" (.jnum 0)
  pyFloat h

/-- `float(pair.get("volume", {}).get("h24", 0))`. -/
def volumeH24Of (pair : JVal) : Except Unit ℚ := do
  let v ← pyDictGetD pair "volume" (.jobj [])
  let h ← pyDictGetD v "h24" (.jnum 0)
  pyFloat h

/-- `float(pair.get("marketCap", 0))`. -/
def marketCapOf (pair : JVal) : Except Unit ℚ := do
  let v ← pyDictGetD pair "marketCap" (.jnum 0)
  pyFloat v

/-- `float(pair.get("fdv", 0))`. -/
def fdvOf (pair : JVal) : Except Unit ℚ := do
  let v ← pyDictGetD pair "fdv" (.jnum 0)
  pyFloat v

/-- The steps of the `try` block up to choosing `pair` and `token_info`:
status check, `data.get("pairs")` truthiness check, best-pair selection and
base/quote resolution.  Any raised exception is `Except.error ()`. -/
def fetchMissBody (contract_address : String)
    (dexResp : Except Unit HttpResp) : Except Unit (JVal × JVal) := do
  let resp ← dexResp
  if resp.status ≠ 200 then throw ()
  let data ← resp.body
  let pairsOpt ← pyDictGet data "pairs"
  if ¬ pyTruthy (pairsOpt.getD .jnull) then throw ()
  match pairsOpt.getD .jnull with
  | .jarr pairsList => do
    let pair ← selectPair pairsList
    let tokenInfo ← pickTokenInfo contract_address pair
    pure (pair, tokenInfo)
  | _ => throw ()

/-- Lines 61-79: `price_usd`, `tokens_per_sol` and the `result` dict literal,
with each value expression evaluated in source order; any raised exception is
`Except.error ()`. -/
def buildRecord (contract_address : String) (pair tokenInfo : JVal)
    (sol_price : ℚ) : Except Unit TokenRecord := do
  let price_usd ← priceUsdOf pair
  let tokens_per_sol : ℚ := if price_usd > 0 then sol_price / price_usd else 0
  let nameV ← pyDictGetD tokenInfo "name" (.jstr "Unknown")
  let symbolV ← pyDictGetD tokenInfo "symbol" (.jstr "???")
  let decimalsV ← pyDictGetD tokenInfo "decimals" (.jnum 9)
  let dexV ← pyGetItem pair "dexId"
  let priceChange ← priceChangeH24Of pair
  let liquidityUsd ← liqKey pair
  let volume ← volumeH24Of pair
  let marketCap ← marketCapOf pair
  let fdv ← fdvOf pair
  let urlV ← pyGetItem pair "url"
  pure [("address", .jstr contract_address),
        ("name", nameV),
        ("symbol", symbolV),
        ("decimals", decimalsV),
        ("dex", dexV),
        ("price_usd", .jnum price_usd),
        ("price_change_h24", .jnum priceChange),
        ("liquidity_usd", .jnum liquidityUsd),
        ("volume_h24", .jnum volume),
        ("market_cap", .jnum marketCap),
        ("fdv", .jnum fdv),
        ("buy_1_sol_tokens", .jnum (round4 tokens_per_sol)),
        ("dexscreener_url", urlV),
        ("solscan_url", .jstr ("https://solscan.io/token/" ++ contract_address))]

/-- The dict returned by the `except Exception` handler (lines 86-94). -/
def degradedRecord (contract_address : String) : TokenRecord :=
  [("address", .jstr contract_address),
   ("name", .jstr "Unknown"),
   ("symbol", .jstr "???"),
   ("price_usd", .jnum 0),
   ("liquidity_usd", .jnum 0),
   ("volume_h24", .jnum 0),
   ("warning", .jstr "Data unavailable - check manually on DexScreener")]

/-- The cache-miss path of `fetch_token_data`: the `try` block and its
`except` handler.  The DexScreener call is attempted first (1 upstream call);
`get_sol_price` runs only after a pair was selected (2 upstream calls); on
success the record is written into the cache, on failure the cache is left
untouched. -/
def missFetch (contract_address : String) (cache : Cache) (now : ℕ)
    (dexResp solResp : Except Unit HttpResp) : TokenRecord × Cache × ℕ :=
  match fetchMissBody contract_address dexResp with
  | .error _ => (degradedRecord contract_address, cache, 1)
  | .ok (pair, tokenInfo) =>
    let sol_price := get_sol_price solResp
    match buildRecord contract_address pair tokenInfo sol_price with
    | .error _ => (degradedRecord contract_address, cache, 2)
    | .ok record =>
      (record, cachePut cache now (strLower contract_address) record, 2)

/-- `fetch_token_data`.  The walrus guard
`if cached := hybrid_token_data_cache.get(cache_key)` returns the cached dict
only when it is truthy, i.e. non-empty. -/
def fetch_token_data (contract_address : String) (cache : Cache) (now : ℕ)
    (dexResp solResp : Except Unit HttpResp) : TokenRecord × Cache × ℕ :=
  match cacheGet cache now (strLower contract_address) with
  | some cached =>
    if cached.isEmpty then missFetch contract_address cache now dexResp solResp
    else (cached, cache, 0)
  | none => missFetch contract_address cache now dexResp solResp

/-- Key lookup in a record dict. -/
def getField (r : TokenRecord) (key : String) : Option JVal := r.lookup key

/-- The keys of a record, in insertion order. -/
def recordKeys (r : TokenRecord) : List String := r.map Prod.fst

/-- The key list of every success record. -/
def successKeys : List String :=
  ["address", "name", "symbol", "decimals", "dex", "price_usd",
   "price_change_h24", "liquidity_usd", "volume_h24", "market_cap", "fdv",
   "buy_1_sol_tokens", "dexscreener_url", "solscan_url"]

/-- A record shaped like the success dict literal. -/
def SuccessShape (r : TokenRecord) : Prop := recordKeys r = successKeys

/-- Every record stored in the cache is a success record. -/
def CacheWF (c : Cache) : Prop := ∀ k e, (k, e) ∈ c → SuccessShape e.value

/-- There is no fresh, truthy cache entry for the address: the walrus guard
falls through and the miss path runs. -/
def noCachedHit (cache : Cache) (now : ℕ) (contract_address : String) : Prop :=
  ∀ r, cacheGet cache now (strLower contract_address) = some r → r.isEmpty

/-! ### Concrete fixtures used by witnesses and counterexamples -/

/-- A fully populated DexScreener pair whose base token has address `abc`. -/
def exPair : JVal :=
  .jobj [("baseToken", .jobj [("address", .jstr "abc"), ("name", .jstr "Tok"),
            ("symbol", .jstr "TK"), ("decimals", .jnum 9)]),
         ("quoteToken", .jobj [("address", .jstr "sol"),
            ("name", .jstr "Wrapped SOL")]),
         ("liquidity", .jobj [("usd", .jnum 100)]),
         ("priceUsd", .jnum 1),
         ("priceChange", .jobj [("h24", .jnum 2)]),
         ("volume", .jobj [("h24", .jnum 3)]),
         ("marketCap", .jnum 4),
         ("fdv", .jnum 5),
         ("dexId", .jstr "raydium"),
         ("url", .jstr "https://dexscreener.example/abc")]

/-- A healthy search response listing just `exPair`. -/
def exDexOK : Except Unit HttpResp :=
  .ok ⟨200, .ok (.jobj [("pairs", .jarr [exPair])])⟩

/-- Pairs carrying only a liquidity figure, for the selection example. -/
def exPairLiq (q : ℚ) : JVal := .jobj [("liquidity", .jobj [("usd", .jnum q)])]

/-- A pair whose base and quote addresses (`aaa`, `bbb`) both differ from the
queried address. -/
def exPairC6 : JVal :=
  .jobj [("baseToken", .jobj [("address", .jstr "aaa"), ("name", .jstr "Base")]),
         ("quoteToken", .jobj [("address", .jstr "bbb"), ("name", .jstr "Quote")])]

/-- A price-feed response with HTTP status 500 but a well-formed body. -/
def exSolResp500 : Except Unit HttpResp :=
  .ok ⟨500, .ok (.jobj [("data", .jobj [("SOL", .jobj [("price", .jnum 1)])])])⟩

/-- A pair whose `liquidity.usd` is `null`, which `float()` rejects. -/
def exPairNullLiq : JVal := .jobj [("liquidity", .jobj [("usd", .jnull)])]

/-- A search response whose only pair has `liquidity.usd = null`. -/
def exDexBadLiq : Except Unit HttpResp :=
  .ok ⟨200, .ok (.jobj [("pairs", .jarr [exPairNullLiq])])⟩

/-- A pair with `priceUsd = 1/20` (the 0.05 of the spec example), for the
derived-metric witness. -/
def exPairPrice : JVal :=
  .jobj [("liquidity", .jobj [("usd", .jnum 100)]),
         ("priceUsd", .jnum (1/20)),
         ("dexId", .jstr "ray"),
         ("url", .jstr "u")]

/-- The record `buildRecord` produces for `exPairPrice` with reference price
150 and empty token metadata. -/
def exRecordPrice : TokenRecord :=
  [("address", .jstr "abc"),
   ("name", .jstr "Unknown"),
   ("symbol", .jstr "???"),
   ("decimals", .jnum 9),
   ("dex", .jstr "ray"),
   ("price_usd", .jnum (1/20)),
   ("price_change_h24", .jnum 0),
   ("liquidity_usd", .jnum 100),
   ("volume_h24", .jnum 0),
   ("market_cap", .jnum 0),
   ("fdv", .jnum 0),
   ("buy_1_sol_tokens",
     .jnum (round4 (if (1/20 : ℚ) > 0 then 150 / (1/20 : ℚ) else 0))),
   ("dexscreener_url", .jstr "u"),
   ("solscan_url", .jstr "https://solscan.io/token/abc")]

/-- A well-liquidated pair whose `priceUsd` is `null`. -/
def exPairBadPrice : JVal :=
  .jobj [("baseToken", .jobj [("address", .jstr "abc")]),
         ("quoteToken", .jobj [("address", .jstr "sol")]),
         ("liquidity", .jobj [("usd", .jnum 100)]),
         ("priceUsd", .jnull),
         ("dexId", .jstr "raydium"),
         ("url", .jstr "https://dexscreener.example/abc")]

/-- A 200 search response listing just `exPairBadPrice`. -/
def exDexBadPrice : Except Unit HttpResp :=
  .ok ⟨200, .ok (.jobj [("pairs", .jarr [exPairBadPrice])])⟩

/-- A 200 search response with an empty pairs list. -/
def exDexEmptyPairs : Except Unit HttpResp :=
  .ok ⟨200, .ok (.jobj [("pairs", .jarr [])])⟩

/-! ### Helper lemmas -/

@[simp] theorem exceptOk_bind {ε α β : Type} (a : α) (f : α → Except ε β) :
    (Except.ok a >>= f) = f a := rfl

@[simp] theorem exceptError_bind {ε α β : Type} (e : ε)
    (f : α → Except ε β) :
    ((Except.error e : Except ε α) >>= f) = Except.error e := rfl

@[simp] theorem exceptThrow_eq_error {ε α : Type} (e : ε) :
    (throw e : Except ε α) = Except.error e := rfl

theorem exceptPure_eq_ok {ε α : Type} (a : α) :
    (pure a : Except ε α) = Except.ok a := rfl

theorem exceptBind_ok {ε α β : Type} (x : Except ε α) (f : α → Except ε β)
    (b : β) :
    x >>= f = Except.ok b ↔ ∃ a, x = Except.ok a ∧ f a = Except.ok b := by
  cases x <;> simp [Bind.bind, Except.bind]

theorem exceptBind_ok_of {ε α β : Type} {x : Except ε α} {f : α → Except ε β}
    {a : α} (h : x = Except.ok a) : x >>= f = f a := by
  subst h; rfl

theorem exceptBind_error_left {ε α β : Type} {x : Except ε α}
    {f : α → Except ε β} {e : ε} (h : x = Except.error e) :
    x >>= f = Except.error e := by
  subst h; rfl

theorem getField_eq_none_of_not_mem {r : TokenRecord} {key : String}
    (h : key ∉ recordKeys r) : getField r key = none := by
  induction r with
  | nil => rfl
  | cons hd tl ih =>
    simp only [recordKeys, List.map_cons, List.mem_cons, not_or] at h
    have hne : (key == hd.1) = false := beq_false_of_ne h.1
    simp only [getField, List.lookup, hne]
    exact ih h.2

theorem successShape_warning_none {r : TokenRecord} (h : SuccessShape r) :
    getField r "warning" = none := by
  apply getField_eq_none_of_not_mem
  rw [SuccessShape] at h
  rw [h]
  decide

theorem successShape_not_isEmpty {r : TokenRecord} (h : SuccessShape r) :
    r.isEmpty = false := by
  cases r with
  | nil => simp [SuccessShape, recordKeys, successKeys] at h
  | cons hd tl => rfl

theorem degraded_warning :
    ∀ a, getField (degradedRecord a) "warning" =
      some (.jstr "Data unavailable - check manually on DexScreener") :=
  fun _ => rfl

theorem buildRecord_ok_elim {a : String} {pair tok : JVal} {s : ℚ}
    {r : TokenRecord} (h : buildRecord a pair tok s = Except.ok r) :
    ∃ pu nm sy dec dx pc lq vol mc fv url,
      priceUsdOf pair = .ok pu ∧
      pyDictGetD tok "name" (.jstr "Unknown") = .ok nm ∧
      pyDictGetD tok "symbol" (.jstr "???") = .ok sy ∧
      pyDictGetD tok "decimals" (.jnum 9) = .ok dec ∧
      pyGetItem pair "dexId" = .ok dx ∧
      priceChangeH24Of pair = .ok pc ∧
      liqKey pair = .ok lq ∧
      volumeH24Of pair = .ok vol ∧
      marketCapOf pair = .ok mc ∧
      fdvOf pair = .ok fv ∧
      pyGetItem pair "url" = .ok url ∧
      r = [("address", .jstr a), ("name", nm), ("symbol", sy),
           ("decimals", dec), ("dex", dx), ("price_usd", .jnum pu),
           ("price_change_h24", .jnum pc), ("liquidity_usd", .jnum lq),
           ("volume_h24", .jnum vol), ("market_cap", .jnum mc),
           ("fdv", .jnum fv),
           ("buy_1_sol_tokens", .jnum (round4 (if pu > 0 then s / pu else 0))),
           ("dexscreener_url", url),
           ("solscan_url", .jstr ("https://solscan.io/token/" ++ a))] := by
  rw [buildRecord] at h
  simp only [exceptBind_ok, exceptPure_eq_ok, Except.ok.injEq] at h
  obtain ⟨pu, hpu, nm, hnm, sy, hsy, dec, hdec, dx, hdx, pc, hpc, lq, hlq,
    vol, hvol, mc, hmc, fv, hfv, url, hurl, hr⟩ := h
  exact ⟨pu, nm, sy, dec, dx, pc, lq, vol, mc, fv, url, hpu, hnm, hsy, hdec,
    hdx, hpc, hlq, hvol, hmc, hfv, hurl, hr.symm⟩

theorem buildRecord_shape {a : String} {pair tok : JVal} {s : ℚ}
    {r : TokenRecord} (h : buildRecord a pair tok s = Except.ok r) :
    SuccessShape r := by
  obtain ⟨pu, nm, sy, dec, dx, pc, lq, vol, mc, fv, url, -, -, -, -, -, -, -,
    -, -, -, -, hr⟩ := buildRecord_ok_elim h
  subst hr
  rfl

theorem buildRecord_address {a : String} {pair tok : JVal} {s : ℚ}
    {r : TokenRecord} (h : buildRecord a pair tok s = Except.ok r) :
    getField r "address" = some (.jstr a) := by
  obtain ⟨pu, nm, sy, dec, dx, pc, lq, vol, mc, fv, url, -, -, -, -, -, -, -,
    -, -, -, -, hr⟩ := buildRecord_ok_elim h
  subst hr
  rfl

theorem missFetch_eq_cases (a : String) (c : Cache) (now : ℕ)
    (dex sol : Except Unit HttpResp) :
    (∃ pair tok record, fetchMissBody a dex = .ok (pair, tok) ∧
      buildRecord a pair tok (get_sol_price sol) = .ok record ∧
      missFetch a c now dex sol =
        (record, cachePut c now (strLower a) record, 2)) ∨
    ((missFetch a c now dex sol).1 = degradedRecord a ∧
     (missFetch a c now dex sol).2.1 = c) := by
  unfold missFetch
  cases hb : fetchMissBody a dex with
  | error e => right; exact ⟨rfl, rfl⟩
  | ok pt =>
    obtain ⟨pair, tok⟩ := pt
    dsimp only
    cases hr : buildRecord a pair tok (get_sol_price sol) with
    | error e => right; exact ⟨rfl, rfl⟩
    | ok record => left; exact ⟨pair, tok, record, rfl, hr, rfl⟩

theorem missFetch_calls_pos (a : String) (c : Cache) (now : ℕ)
    (dex sol : Except Unit HttpResp) :
    1 ≤ (missFetch a c now dex sol).2.2 := by
  unfold missFetch
  cases fetchMissBody a dex with
  | error e => simp
  | ok pt =>
    obtain ⟨pair, tok⟩ := pt
    dsimp only
    cases buildRecord a pair tok (get_sol_price sol) <;> simp

theorem fetch_eq_missFetch {a : String} {c : Cache} {now : ℕ}
    (dex sol : Except Unit HttpResp) (hmiss : noCachedHit c now a) :
    fetch_token_data a c now dex sol = missFetch a c now dex sol := by
  unfold fetch_token_data
  cases hg : cacheGet c now (strLower a) with
  | none => rfl
  | some cached =>
    have hempty := hmiss cached hg
    simp [hempty]

theorem fetch_hit {a : String} {c : Cache} {now : ℕ} {r : TokenRecord}
    (dex sol : Except Unit HttpResp)
    (hg : cacheGet c now (strLower a) = some r) (hne : r.isEmpty = false) :
    fetch_token_data a c now dex sol = (r, c, 0) := by
  unfold fetch_token_data
  rw [hg]
  simp [hne]

theorem cacheGet_put_self {c : Cache} {now now2 : ℕ} {k : String}
    {v : TokenRecord} (h : now2 < now + cacheTtl) :
    cacheGet (cachePut c now k v) now2 k = some v := by
  simp [cacheGet, cachePut, List.lookup, h]

theorem lookup_mem {β : Type} {l : List (String × β)} {k : String} {b : β}
    (h : l.lookup k = some b) : (k, b) ∈ l := by
  induction l with
  | nil => simp [List.lookup] at h
  | cons hd tl ih =>
    obtain ⟨k', b'⟩ := hd
    simp only [List.lookup] at h
    cases hk : (k == k') with
    | true =>
      rw [hk] at h
      have hkk : k = k' := eq_of_beq hk
      injection h with hb
      subst hkk; subst hb
      exact List.mem_cons_self _ _
    | false =>
      rw [hk] at h
      exact List.mem_cons_of_mem _ (ih h)

theorem cacheGet_mem {c : Cache} {now : ℕ} {key : String} {r : TokenRecord}
    (h : cacheGet c now key = some r) : ∃ e, (key, e) ∈ c ∧ e.value = r := by
  unfold cacheGet at h
  cases hl : c.lookup key with
  | none => rw [hl] at h; exact absurd h (by simp)
  | some e =>
    rw [hl] at h
    dsimp only at h
    by_cases hf : now < e.insertedAt + cacheTtl
    · rw [if_pos hf] at h
      injection h with hv
      exact ⟨e, lookup_mem hl, hv⟩
    · rw [if_neg hf] at h
      exact absurd h (by simp)

/-- Every fetch result is either a success-shaped record or exactly the
degraded fallback record, provided the cache holds only success records. -/
theorem fetch_shape_aux (a : String) (cache : Cache) (now : ℕ)
    (dex sol : Except Unit HttpResp) (hwf : CacheWF cache) :
    SuccessShape (fetch_token_data a cache now dex sol).1 ∨
    (fetch_token_data a cache now dex sol).1 = degradedRecord a := by
  by_cases hmiss : noCachedHit cache now a
  · rw [fetch_eq_missFetch dex sol hmiss]
    rcases missFetch_eq_cases a cache now dex sol with
      ⟨pair, tok, record, hb, hr, heq⟩ | ⟨h1, h2⟩
    · rw [heq]; left; exact buildRecord_shape hr
    · right; exact h1
  · rw [noCachedHit] at hmiss
    push_neg at hmiss
    obtain ⟨r, hg, hne⟩ := hmiss
    rw [fetch_hit dex sol hg (by simpa using hne)]
    left
    obtain ⟨e, hmem, hv⟩ := cacheGet_mem hg
    rw [← hv]
    exact hwf _ _ hmem

/-! ### Claim theorems -/

/-- C1: for every string input address, `fetch_token_data` never raises an
exception outward — it is a total function into records — and the result is
either a success record, recognisable by the absence of a `warning` field, or
the degraded fallback record, recognisable by its non-empty `warning` field;
degradation is signalled only through that field, never through a raised
error.  (The cache is assumed to hold only success records, which is the only
kind `fetch_token_data` ever stores.) -/
theorem fetch_never_raises_warning_dichotomy (a : String) (cache : Cache)
    (now : ℕ) (dex sol : Except Unit HttpResp) (hwf : CacheWF cache) :
    getField (fetch_token_data a cache now dex sol).1 "warning" = none ∨
    ((fetch_token_data a cache now dex sol).1 = degradedRecord a ∧
      ∃ w, getField (fetch_token_data a cache now dex sol).1 "warning" =
        some (.jstr w) ∧ w ≠ "") := by
  rcases fetch_shape_aux a cache now dex sol hwf with hs | hd
  · left; exact successShape_warning_none hs
  · right
    refine ⟨hd, "Data unavailable - check manually on DexScreener", ?_, by decide⟩
    rw [hd]
    exact degraded_warning a

/-- Witness for C1 at a concrete input (empty cache, failing transport). -/
theorem fetch_never_raises_warning_dichotomy_witness :
    CacheWF [] ∧
    (getField (fetch_token_data "A" [] 0 (.error ()) (.error ())).1
        "warning" = none ∨
      ((fetch_token_data "A" [] 0 (.error ()) (.error ())).1 =
          degradedRecord "A" ∧
        ∃ w, getField (fetch_token_data "A" [] 0 (.error ()) (.error ())).1
            "warning" = some (.jstr w) ∧ w ≠ "")) :=
  ⟨fun _ _ h => absurd h (List.not_mem_nil _),
   fetch_never_raises_warning_dichotomy "A" [] 0 (.error ()) (.error ())
     (fun _ _ h => absurd h (List.not_mem_nil _))⟩

/-- C2 counterexample: the degraded record returned by a failed fetch does
not carry every documented field — `decimals` (like `dex`,
`price_change_h24`, `market_cap`, `fdv`, `buy_1_sol_tokens` and the URL
fields) is absent — even though it does carry a `warning`. -/
theorem degraded_record_missing_fields :
    getField (fetch_token_data "A" [] 0 (Except.error ())
        (Except.error ())).1 "decimals" = none ∧
    (∃ w, getField (fetch_token_data "A" [] 0 (Except.error ())
        (Except.error ())).1 "warning" = some (.jstr w)) :=
  ⟨rfl, ⟨"Data unavailable - check manually on DexScreener", rfl⟩⟩

/-- C2 (amended): every record returned by `fetch_token_data` is either a
fully populated success record, carrying exactly the fourteen documented
fields, or exactly the degraded fallback record, which carries only
`address`, sentinel `name`/`symbol`, the three zeroed numeric fields
`price_usd`/`liquidity_usd`/`volume_h24`, and a non-empty `warning`; the
remaining documented fields are absent from degraded records.  A record is
never a mix of the two shapes. -/
theorem fetch_record_shape_dichotomy (a : String) (cache : Cache) (now : ℕ)
    (dex sol : Except Unit HttpResp) (hwf : CacheWF cache) :
    recordKeys (fetch_token_data a cache now dex sol).1 = successKeys ∨
    ((fetch_token_data a cache now dex sol).1 = degradedRecord a ∧
      recordKeys (fetch_token_data a cache now dex sol).1 =
        ["address", "name", "symbol", "price_usd", "liquidity_usd",
         "volume_h24", "warning"]) := by
  rcases fetch_shape_aux a cache now dex sol hwf with hs | hd
  · left; exact hs
  · right; exact ⟨hd, by rw [hd]; rfl⟩

/-- Witness for C2's amended theorem at a concrete input. -/
theorem fetch_record_shape_dichotomy_witness :
    CacheWF [] ∧
    (recordKeys (fetch_token_data "A" [] 0 (.error ()) (.error ())).1 =
        successKeys ∨
      ((fetch_token_data "A" [] 0 (.error ()) (.error ())).1 =
          degradedRecord "A" ∧
        recordKeys (fetch_token_data "A" [] 0 (.error ()) (.error ())).1 =
          ["address", "name", "symbol", "price_usd", "liquidity_usd",
           "volume_h24", "warning"])) :=
  ⟨fun _ _ h => absurd h (List.not_mem_nil _),
   fetch_record_shape_dichotomy "A" [] 0 (.error ()) (.error ())
     (fun _ _ h => absurd h (List.not_mem_nil _))⟩

theorem noCachedHit_nil (now : ℕ) (a : String) : noCachedHit [] now a :=
  fun _ h => Option.noConfusion h

theorem fetchMissBody_error_of_fail {a : String}
    {dex : Except Unit HttpResp}
    (hfail : dex = .error () ∨
      ∃ st fields, dex = .ok ⟨st, .ok (.jobj fields)⟩ ∧
        fields.lookup "pairs" = some (.jarr [])) :
    fetchMissBody a dex = .error () := by
  rcases hfail with hdex | ⟨st, fields, hdex, hpairs⟩
  · subst hdex; rfl
  · subst hdex
    by_cases hst : st = 200
    · subst hst
      simp [fetchMissBody, pyDictGet, hpairs, pyTruthy, selectPair, decorate,
        sortedDesc]
    · simp [fetchMissBody, hst]

/-- C3: a degraded (failed) fetch result is never written to the cache — if
the upstream query fails (transport error) or returns zero pairs, the fetch
returns a record with a non-empty warning, leaves the cache exactly as it
was, and an immediately following fetch for the same address performs a
fresh upstream call (its upstream-call count is at least 1). -/
theorem degraded_fetch_not_cached (a : String) (cache : Cache) (now : ℕ)
    (dex sol dex2 sol2 : Except Unit HttpResp)
    (hmiss : noCachedHit cache now a)
    (hfail : dex = .error () ∨
      ∃ st fields, dex = .ok ⟨st, .ok (.jobj fields)⟩ ∧
        fields.lookup "pairs" = some (.jarr [])) :
    (∃ w, getField (fetch_token_data a cache now dex sol).1 "warning" =
        some (.jstr w) ∧ w ≠ "") ∧
    (fetch_token_data a cache now dex sol).2.1 = cache ∧
    1 ≤ (fetch_token_data a (fetch_token_data a cache now dex sol).2.1 now
        dex2 sol2).2.2 := by
  have hfb := fetchMissBody_error_of_fail (a := a) hfail
  have hmf : missFetch a cache now dex sol = (degradedRecord a, cache, 1) := by
    unfold missFetch; rw [hfb]
  rw [fetch_eq_missFetch dex sol hmiss, hmf]
  refine ⟨⟨"Data unavailable - check manually on DexScreener",
    degraded_warning a, by decide⟩, rfl, ?_⟩
  dsimp only
  rw [fetch_eq_missFetch dex2 sol2 hmiss]
  exact missFetch_calls_pos a cache now dex2 sol2

/-- Witness for C3: empty cache, upstream answers 200 with zero pairs. -/
theorem degraded_fetch_not_cached_witness :
    (∃ w, getField (fetch_token_data "a" [] 0 exDexEmptyPairs
        (.error ())).1 "warning" = some (.jstr w) ∧ w ≠ "") ∧
    (fetch_token_data "a" [] 0 exDexEmptyPairs (.error ())).2.1 = [] ∧
    1 ≤ (fetch_token_data "a"
        (fetch_token_data "a" [] 0 exDexEmptyPairs (.error ())).2.1 0
        (.error ()) (.error ())).2.2 :=
  degraded_fetch_not_cached "a" [] 0 exDexEmptyPairs (.error ()) (.error ())
    (.error ()) (noCachedHit_nil 0 "a")
    (Or.inr ⟨200, [("pairs", .jarr [])], rfl, rfl⟩)

/-- C4: after a cache-miss fetch that succeeded (no warning), a second fetch
for the same address within the TTL window of the write returns the identical
record, leaves the cache unchanged, and performs zero upstream HTTP calls,
whatever the upstream would have answered. -/
theorem cache_hit_idempotent (a : String) (cache : Cache) (now now2 : ℕ)
    (dex sol dex2 sol2 : Except Unit HttpResp)
    (hmiss : noCachedHit cache now a)
    (hok : getField (fetch_token_data a cache now dex sol).1 "warning" = none)
    (_h1 : now ≤ now2) (h2 : now2 < now + cacheTtl) :
    fetch_token_data a (fetch_token_data a cache now dex sol).2.1 now2 dex2
        sol2 =
      ((fetch_token_data a cache now dex sol).1,
       (fetch_token_data a cache now dex sol).2.1, 0) := by
  rw [fetch_eq_missFetch dex sol hmiss] at hok ⊢
  rcases missFetch_eq_cases a cache now dex sol with
    ⟨pair, tok, record, hb, hr, heq⟩ | ⟨hd1, hd2⟩
  · rw [heq] at hok ⊢
    dsimp only
    exact fetch_hit dex2 sol2 (cacheGet_put_self h2)
      (successShape_not_isEmpty (buildRecord_shape hr))
  · rw [hd1, degraded_warning a] at hok
    exact Option.noConfusion hok

/-- Witness for C4: a fresh successful fetch for `ABC`, refetched one second
later. -/
theorem cache_hit_idempotent_witness :
    getField (fetch_token_data "ABC" [] 0 exDexOK (.error ())).1
        "warning" = none ∧
    fetch_token_data "ABC"
        (fetch_token_data "ABC" [] 0 exDexOK (.error ())).2.1 1
        (.error ()) (.error ()) =
      ((fetch_token_data "ABC" [] 0 exDexOK (.error ())).1,
       (fetch_token_data "ABC" [] 0 exDexOK (.error ())).2.1, 0) :=
  ⟨rfl,
   cache_hit_idempotent "ABC" [] 0 1 exDexOK (.error ()) (.error ())
     (.error ()) (noCachedHit_nil 0 "ABC") rfl (by decide) (by decide)⟩

theorem sortedDesc_head_spec :
    ∀ l : List (JVal × ℚ), l ≠ [] →
      ∃ pre m suf, l = pre ++ m :: suf ∧ (sortedDesc l).head? = some m ∧
        (∀ y ∈ l, y.2 ≤ m.2) ∧ (∀ y ∈ pre, y.2 < m.2) := by
  intro l
  induction l with
  | nil => intro h; exact absurd rfl h
  | cons x xs ih =>
    intro _
    cases xs with
    | nil =>
      exact ⟨[], x, [], rfl, rfl, by simp, by simp⟩
    | cons x2 xs2 =>
      obtain ⟨preX, mX, sufX, hsplit, hhead, hmax, hpre⟩ := ih (by simp)
      obtain ⟨rest, hrest⟩ : ∃ rest, sortedDesc (x2 :: xs2) = mX :: rest := by
        cases hs : sortedDesc (x2 :: xs2) with
        | nil => rw [hs] at hhead; exact absurd hhead (by simp)
        | cons a b =>
          rw [hs] at hhead
          simp only [List.head?_cons, Option.some.injEq] at hhead
          exact ⟨b, by rw [hhead]⟩
      by_cases hcmp : mX.2 ≤ x.2
      · refine ⟨[], x, x2 :: xs2, rfl, ?_, ?_, by simp⟩
        · show (insertDesc x (sortedDesc (x2 :: xs2))).head? = some x
          rw [hrest]
          simp [insertDesc, hcmp]
        · intro y hy
          rcases List.mem_cons.mp hy with h | h
          · subst h; exact le_refl _
          · exact le_trans (hmax y h) hcmp
      · push_neg at hcmp
        refine ⟨x :: preX, mX, sufX, by rw [hsplit]; simp, ?_, ?_, ?_⟩
        · show (insertDesc x (sortedDesc (x2 :: xs2))).head? = some mX
          rw [hrest]
          simp [insertDesc, not_le.mpr hcmp]
        · intro y hy
          rcases List.mem_cons.mp hy with h | h
          · subst h; exact le_of_lt hcmp
          · exact hmax y h
        · intro y hy
          rcases List.mem_cons.mp hy with h | h
          · subst h; exact hcmp
          · exact hpre y h

theorem decorate_ok_of_all {xs : List JVal}
    (h : ∀ p ∈ xs, ∃ k, liqKey p = .ok k) :
    ∃ keyed, decorate xs = .ok keyed ∧ keyed.map Prod.fst = xs ∧
      ∀ y ∈ keyed, liqKey y.1 = .ok y.2 := by
  induction xs with
  | nil => exact ⟨[], rfl, rfl, by simp⟩
  | cons p ps ih =>
    obtain ⟨k, hk⟩ := h p (List.mem_cons_self _ _)
    obtain ⟨keyed, hdec, hmap, hmem⟩ :=
      ih (fun q hq => h q (List.mem_cons_of_mem _ hq))
    refine ⟨(p, k) :: keyed, ?_, by simp [hmap], ?_⟩
    · simp [decorate, hk, hdec, exceptPure_eq_ok]
    · intro y hy
      rcases List.mem_cons.mp hy with h1 | h1
      · subst h1; exact hk
      · exact hmem y h1

theorem decorate_error_of_mem {xs : List JVal} {p : JVal}
    (hp : p ∈ xs) (he : liqKey p = .error ()) : decorate xs = .error () := by
  induction xs with
  | nil => exact absurd hp (List.not_mem_nil _)
  | cons q qs ih =>
    rcases List.mem_cons.mp hp with h | h
    · subst h; simp [decorate, he]
    · cases hq : liqKey q with
      | error e => cases e; simp [decorate, hq]
      | ok k => simp [decorate, hq, ih h]

theorem selectPair_of_head {xs : List JVal} {keyed : List (JVal × ℚ)}
    {m : JVal × ℚ} (hdec : decorate xs = .ok keyed)
    (hh : (sortedDesc keyed).head? = some m) :
    selectPair xs = .ok m.1 := by
  simp only [selectPair, hdec, exceptOk_bind]
  cases hs : sortedDesc keyed with
  | nil => rw [hs] at hh; exact absurd hh (by simp)
  | cons a b =>
    rw [hs] at hh
    simp only [List.head?_cons, Option.some.injEq] at hh
    subst hh
    rfl

/-- C5: for every non-empty pairs list whose liquidity keys all convert, the
selected pair is the first pair attaining the maximum liquidity key (missing
liquidity fields convert to 0 inside `liqKey` itself): every pair's key is at
most the selected pair's key, and every pair strictly before the selected one
has a strictly smaller key — a stable descending sort, ties resolved to the
first-encountered pair. -/
theorem liquidity_selection (xs : List JVal) (hne : xs ≠ [])
    (hkeys : ∀ p ∈ xs, ∃ k, liqKey p = .ok k) :
    ∃ pre best suf kb, xs = pre ++ best :: suf ∧
      selectPair xs = .ok best ∧ liqKey best = .ok kb ∧
      (∀ p ∈ xs, ∀ kp, liqKey p = .ok kp → kp ≤ kb) ∧
      (∀ p ∈ pre, ∀ kp, liqKey p = .ok kp → kp < kb) := by
  obtain ⟨keyed, hdec, hmap, hmem⟩ := decorate_ok_of_all hkeys
  have hkne : keyed ≠ [] := by
    intro h
    subst h
    exact hne hmap.symm
  obtain ⟨preK, m, sufK, hsplit, hhead, hmax, hpre⟩ :=
    sortedDesc_head_spec keyed hkne
  refine ⟨preK.map Prod.fst, m.1, sufK.map Prod.fst, m.2, ?_,
    selectPair_of_head hdec hhead, ?_, ?_, ?_⟩
  · rw [← hmap, hsplit]; simp
  · exact hmem m (by
      rw [hsplit]
      exact List.mem_append_right _ (List.mem_cons_self _ _))
  · intro p hp kp hkp
    rw [← hmap] at hp
    obtain ⟨y, hy, hyp⟩ := List.mem_map.mp hp
    have hky := hmem y hy
    rw [hyp, hkp] at hky
    injection hky with hkk
    rw [hkk]
    exact hmax y hy
  · intro p hp kp hkp
    obtain ⟨y, hy, hyp⟩ := List.mem_map.mp hp
    have hky := hmem y (by rw [hsplit]; exact List.mem_append_left _ hy)
    rw [hyp, hkp] at hky
    injection hky with hkk
    rw [hkk]
    exact hpre y hy

/-- Witness for C5: liquidities `[10, 500, 300]` — the pair with 500 is
selected. -/
theorem liquidity_selection_witness :
    selectPair [exPairLiq 10, exPairLiq 500, exPairLiq 300] =
      .ok (exPairLiq 500) ∧
    (∃ pre best suf kb,
      [exPairLiq 10, exPairLiq 500, exPairLiq 300] = pre ++ best :: suf ∧
      selectPair [exPairLiq 10, exPairLiq 500, exPairLiq 300] = .ok best ∧
      liqKey best = .ok kb ∧
      (∀ p ∈ [exPairLiq 10, exPairLiq 500, exPairLiq 300],
        ∀ kp, liqKey p = .ok kp → kp ≤ kb) ∧
      (∀ p ∈ pre, ∀ kp, liqKey p = .ok kp → kp < kb)) :=
  ⟨rfl,
   liquidity_selection [exPairLiq 10, exPairLiq 500, exPairLiq 300]
     (by simp)
     (fun p hp => by
       simp only [List.mem_cons, List.not_mem_nil, or_false] at hp
       rcases hp with rfl | rfl | rfl
       · exact ⟨10, rfl⟩
       · exact ⟨500, rfl⟩
       · exact ⟨300, rfl⟩)⟩

/-- C6 counterexample: for a pair with base address `aaa` and quote address
`bbb`, querying `ccc` — which matches neither side — selects the QUOTE-token
side, not the base-token side the claim describes. -/
theorem base_quote_resolution_cex :
    pickTokenInfo "ccc" exPairC6 =
      .ok (.jobj [("address", .jstr "bbb"), ("name", .jstr "Quote")]) ∧
    pyGetItem exPairC6 "baseToken" =
      .ok (.jobj [("address", .jstr "aaa"), ("name", .jstr "Base")]) ∧
    ("bbb" : String) ≠ "aaa" :=
  ⟨rfl, rfl, by decide⟩

/-- C6 (amended): the queried address is compared case-insensitively against
the BASE token address only; on a match the base side is the subject,
otherwise — including when the address matches neither side — the
quote-token side is used.  The quote address is never consulted. -/
theorem base_quote_resolution_amended (addr : String) (pair bt : JVal)
    (s : String)
    (hb : pyGetItem pair "baseToken" = .ok bt)
    (ha : pyGetItem bt "address" = .ok (.jstr s)) :
    pickTokenInfo addr pair =
      if strLower s == strLower addr then .ok bt
      else pyGetItem pair "quoteToken" := by
  simp only [pickTokenInfo, hb, ha, pyLower, exceptOk_bind]

/-- Witness for C6's amended theorem: `ccc` matches neither side of
`exPairC6`. -/
theorem base_quote_resolution_amended_witness :
    pickTokenInfo "ccc" exPairC6 =
      if strLower "aaa" == strLower "ccc" then
        .ok (.jobj [("address", .jstr "aaa"), ("name", .jstr "Base")])
      else pyGetItem exPairC6 "quoteToken" :=
  base_quote_resolution_amended "ccc" exPairC6
    (.jobj [("address", .jstr "aaa"), ("name", .jstr "Base")]) "aaa" rfl rfl

theorem round4_zero : round4 0 = 0 := by
  norm_num [round4, roundHalfEven]

/-- C7: whenever the record build succeeds, `buy_1_sol_tokens` equals
`round4 (sol_price / price_usd)` when `price_usd > 0`, and `0` when
`price_usd = 0` (e.g. reference price 150 and price 0.05 give 3000). -/
theorem buy_one_unit_tokens_formula (a : String) (pair tok : JVal) (s : ℚ)
    (r : TokenRecord) (h : buildRecord a pair tok s = .ok r) :
    ∃ pu, priceUsdOf pair = .ok pu ∧
      getField r "price_usd" = some (.jnum pu) ∧
      (0 < pu →
        getField r "buy_1_sol_tokens" = some (.jnum (round4 (s / pu)))) ∧
      (pu = 0 → getField r "buy_1_sol_tokens" = some (.jnum 0)) := by
  obtain ⟨pu, nm, sy, dec, dx, pc, lq, vol, mc, fv, url, hpu, -, -, -, -, -,
    -, -, -, -, -, hr⟩ := buildRecord_ok_elim h
  subst hr
  refine ⟨pu, hpu, rfl, ?_, ?_⟩
  · intro hpos
    rw [if_pos hpos]
    rfl
  · intro h0
    subst h0
    rw [if_neg (by norm_num), round4_zero]
    rfl

/-- Witness for C7, also checking the spec's 150 / 0.05 = 3000 example. -/
theorem buy_one_unit_tokens_formula_witness :
    buildRecord "abc" exPairPrice (.jobj []) 150 = .ok exRecordPrice ∧
    (∃ pu, priceUsdOf exPairPrice = .ok pu ∧
      getField exRecordPrice "price_usd" = some (.jnum pu) ∧
      (0 < pu → getField exRecordPrice "buy_1_sol_tokens" =
        some (.jnum (round4 (150 / pu)))) ∧
      (pu = 0 → getField exRecordPrice "buy_1_sol_tokens" =
        some (.jnum 0))) ∧
    round4 ((150 : ℚ) / (1/20)) = 3000 :=
  ⟨rfl,
   buy_one_unit_tokens_formula "abc" exPairPrice (.jobj []) 150
     exRecordPrice rfl,
   by norm_num [round4, roundHalfEven]⟩

/-- C8 counterexample: the price oracle never inspects the HTTP status — a
non-200 (here 500) response whose body still parses and carries
`data.SOL.price` yields that parsed price, not the 138.0 fallback the claim
requires for every non-200 response. -/
theorem sol_price_ignores_status_cex :
    exSolResp500 =
      .ok ⟨500, .ok (.jobj [("data",
        .jobj [("SOL", .jobj [("price", .jnum 1)])])])⟩ ∧
    get_sol_price exSolResp500 = 1 ∧ (1 : ℚ) ≠ 138 :=
  ⟨rfl, rfl, by norm_num⟩

/-- C8 (amended): `get_sol_price` never fails outward — any exception during
the request, JSON parsing, key access or float conversion yields the fixed
fallback 138.0 — and when the body yields a price it returns that parsed
price regardless of the HTTP status, which the source never checks. -/
theorem sol_price_fallback_amended :
    get_sol_price (.error ()) = 138 ∧
    (∀ st : ℕ, get_sol_price (.ok ⟨st, .error ()⟩) = 138) ∧
    (∀ (st : ℕ) (body : JVal), extractSolPrice body = .error () →
      get_sol_price (.ok ⟨st, .ok body⟩) = 138) ∧
    (∀ (st : ℕ) (body : JVal) (p : ℚ), extractSolPrice body = .ok p →
      get_sol_price (.ok ⟨st, .ok body⟩) = p) := by
  refine ⟨rfl, fun st => rfl, ?_, ?_⟩
  · intro st body h
    simp [get_sol_price, h]
  · intro st body p h
    simp [get_sol_price, h]

/-- Witness for C8's amended theorem: a body without the expected keys falls
back to 138; a well-formed body yields its price. -/
theorem sol_price_fallback_amended_witness :
    extractSolPrice (.jobj []) = .error () ∧
    get_sol_price (.ok ⟨200, .ok (.jobj [])⟩) = 138 ∧
    extractSolPrice (.jobj [("data",
      .jobj [("SOL", .jobj [("price", .jnum 3)])])]) = .ok 3 ∧
    get_sol_price (.ok ⟨200, .ok (.jobj [("data",
      .jobj [("SOL", .jobj [("price", .jnum 3)])])])⟩) = 3 :=
  ⟨rfl,
   sol_price_fallback_amended.2.2.1 200 (.jobj []) rfl,
   rfl,
   sol_price_fallback_amended.2.2.2 200
     (.jobj [("data", .jobj [("SOL", .jobj [("price", .jnum 3)])])]) 3 rfl⟩

/-- C9 counterexample: a successful `fetch_token_data "ABC"` caches its
record under the lowercased key; a following `fetch_token_data "abc"`
(same token, different casing) is served that cached record, whose `address`
field still reads `ABC` — not the `abc` supplied to that call. -/
theorem address_casing_cex :
    getField (fetch_token_data "abc"
        (fetch_token_data "ABC" [] 0 exDexOK (.error ())).2.1 0
        (.error ()) (.error ())).1 "address" = some (.jstr "ABC") ∧
    ("ABC" : String) ≠ "abc" :=
  ⟨rfl, by decide⟩

/-- C9 (amended): on a cache miss the returned record's `address` field is
exactly the address string supplied to that call, original casing included,
in both the success and the degraded path; only cache hits can return a
record created under a different casing of the same address. -/
theorem address_casing_miss (a : String) (cache : Cache) (now : ℕ)
    (dex sol : Except Unit HttpResp) (hmiss : noCachedHit cache now a) :
    getField (fetch_token_data a cache now dex sol).1 "address" =
      some (.jstr a) := by
  rw [fetch_eq_missFetch dex sol hmiss]
  rcases missFetch_eq_cases a cache now dex sol with
    ⟨pair, tok, record, hb, hr, heq⟩ | ⟨h1, h2⟩
  · rw [heq]
    exact buildRecord_address hr
  · rw [h1]
    rfl

/-- Witness for C9's amended theorem. -/
theorem address_casing_miss_witness :
    getField (fetch_token_data "A" [] 5 (.error ()) (.error ())).1
      "address" = some (.jstr "A") :=
  address_casing_miss "A" [] 5 (.error ()) (.error ())
    (noCachedHit_nil 5 "A")

theorem buildRecord_error_of_numeric {a : String} {pair tok : JVal} {s : ℚ}
    (h : priceUsdOf pair = .error () ∨ priceChangeH24Of pair = .error () ∨
      volumeH24Of pair = .error () ∨ marketCapOf pair = .error () ∨
      fdvOf pair = .error ()) :
    buildRecord a pair tok s = .error () := by
  cases hb : buildRecord a pair tok s with
  | error e => cases e; rfl
  | ok r =>
    obtain ⟨pu, nm, sy, dec, dx, pc, lq, vol, mc, fv, url, hpu, -, -, -, -,
      hpc, -, hvol, hmc, hfv, -, -⟩ := buildRecord_ok_elim hb
    rcases h with h | h | h | h | h
    · rw [h] at hpu; exact Except.noConfusion hpu
    · rw [h] at hpc; exact Except.noConfusion hpc
    · rw [h] at hvol; exact Except.noConfusion hvol
    · rw [h] at hmc; exact Except.noConfusion hmc
    · rw [h] at hfv; exact Except.noConfusion hfv

/-- C10: a malformed numeric value degrades the whole fetch instead of being
replaced by its documented default.  If any listed pair's `liquidity.usd`
fails float conversion (e.g. JSON null), the fetch returns the degraded
record after only the search call; if the selected pair's `priceUsd`,
`priceChange.h24`, `volume.h24`, `marketCap` or `fdv` fails conversion, the
fetch likewise returns the degraded record.  In both cases the cache is
untouched and no other well-formed pair is used. -/
theorem malformed_numeric_degrades (a : String) (cache : Cache) (now : ℕ)
    (dex sol : Except Unit HttpResp) (hmiss : noCachedHit cache now a) :
    (∀ (fields : List (String × JVal)) (xs : List JVal),
      dex = .ok ⟨200, .ok (.jobj fields)⟩ →
      fields.lookup "pairs" = some (.jarr xs) →
      (∃ p ∈ xs, liqKey p = .error ()) →
      fetch_token_data a cache now dex sol = (degradedRecord a, cache, 1)) ∧
    (∀ pair tok, fetchMissBody a dex = .ok (pair, tok) →
      (priceUsdOf pair = .error () ∨ priceChangeH24Of pair = .error () ∨
        volumeH24Of pair = .error () ∨ marketCapOf pair = .error () ∨
        fdvOf pair = .error ()) →
      fetch_token_data a cache now dex sol = (degradedRecord a, cache, 2)) := by
  constructor
  · intro fields xs hdex hpairs hbad
    obtain ⟨p, hp, hkey⟩ := hbad
    have hxs : xs.isEmpty = false := by
      cases xs with
      | nil => exact absurd hp (List.not_mem_nil _)
      | cons y ys => rfl
    have hfb : fetchMissBody a dex = .error () := by
      subst hdex
      simp [fetchMissBody, pyDictGet, hpairs, pyTruthy, hxs, selectPair,
        decorate_error_of_mem hp hkey]
    rw [fetch_eq_missFetch dex sol hmiss]
    unfold missFetch
    rw [hfb]
  · intro pair tok hfb hnum
    rw [fetch_eq_missFetch dex sol hmiss]
    unfold missFetch
    rw [hfb]
    dsimp only
    rw [buildRecord_error_of_numeric hnum]

/-- Witness for C10: a null `liquidity.usd` degrades after the search call;
a null `priceUsd` on the selected pair degrades after the oracle call. -/
theorem malformed_numeric_degrades_witness :
    fetch_token_data "a" [] 0 exDexBadLiq (.error ()) =
      (degradedRecord "a", [], 1) ∧
    fetch_token_data "a" [] 0 exDexBadPrice (.error ()) =
      (degradedRecord "a", [], 2) :=
  ⟨(malformed_numeric_degrades "a" [] 0 exDexBadLiq (.error ())
      (noCachedHit_nil 0 "a")).1 [("pairs", .jarr [exPairNullLiq])]
      [exPairNullLiq] rfl rfl
      ⟨exPairNullLiq, List.mem_cons_self _ _, rfl⟩,
   (malformed_numeric_degrades "a" [] 0 exDexBadPrice (.error ())
      (noCachedHit_nil 0 "a")).2 exPairBadPrice
      (.jobj [("address", .jstr "sol")]) rfl (Or.inl rfl)⟩

end TokenData
